import Mathlib

/-!
Verification of the WannCannaMED schema reconciler and helper functions.

Shallow embedding of:
- `ensureTable` / `ensureProductsSchema` from `db/migrations/ensure-products-schema.js`
  (the schema reconciler specified in the design document),
- `extendProductSchema`, `getLastWorkdayDate` and `formatISOToDisplay` from `server.js`.

The SQLite storage engine is a black-box collaborator of the reconciler; it is
modelled by a small state machine (`DbState` with `alterAdd`, `createProducts`)
whose behaviour for the statements the reconciler issues matches SQLite:
`ALTER TABLE ... ADD COLUMN` fails with a `duplicate column name` error when the
column exists and otherwise appends the column, giving prior rows the
declaration's default value; `CREATE TABLE` rejects duplicate column names.
Storage faults (connection loss, privilege errors, concurrent writers) are
modelled by wrapping the engine (`alterFault`, `alterRace`), exactly as an
opaque `db` handle is passed into the JavaScript functions.
-/

namespace Wcm

/-- ColumnSpec: a column name plus its DDL declaration string (type and
optional default clause), as in the `EXPECTED_COLUMNS` entries of
`db/migrations/ensure-products-schema.js`. -/
structure ColumnSpec where
  name : String
  ddl : String
deriving DecidableEq, Repr

/-- EXPECTED_COLUMNS literal from `db/migrations/ensure-products-schema.js`. -/
def EXPECTED_COLUMNS : List ColumnSpec := [
  ⟨"title", "TEXT"⟩,
  ⟨"price", "REAL"⟩,
  ⟨"image", "TEXT"⟩,
  ⟨"description", "TEXT"⟩,
  ⟨"thc", "TEXT"⟩,
  ⟨"cbd", "TEXT"⟩,
  ⟨"effects", "TEXT"⟩,
  ⟨"aroma", "TEXT"⟩,
  ⟨"terpenes", "TEXT"⟩,
  ⟨"strain_type", "TEXT"⟩,
  ⟨"is_active", "INTEGER DEFAULT 1"⟩,
  ⟨"created_at", "DATETIME DEFAULT CURRENT_TIMESTAMP"⟩,
  ⟨"updated_at", "DATETIME DEFAULT CURRENT_TIMESTAMP"⟩]

/-- Synthetic auto-incrementing primary key column from the CREATE TABLE
branch of `ensureTable`. -/
def idColumn : ColumnSpec := ⟨"id", "INTEGER PRIMARY KEY AUTOINCREMENT"⟩

/-- Row of the products table: the stored value (or NULL) for each column, in
column order. -/
abbrev Row := List (String × Option String)

/-- State of the database as far as `ensureTable` observes and mutates it:
whether the `products` table exists, its columns in order, and its rows. -/
structure DbState where
  hasProducts : Bool
  columns : List ColumnSpec
  rows : List Row
deriving DecidableEq, Repr

/-- Column names of the live table, in the order `PRAGMA table_info` reports
them. -/
def colNames (s : DbState) : List String := s.columns.map (fun c => c.name)

/-- Engine semantics of `ALTER TABLE products ADD COLUMN name ddl`: fails with
SQLite's duplicate-column error when the column already exists, otherwise
appends the column and extends every existing row with the declaration's
default value (`dflt` is the engine's reading of the DDL's DEFAULT clause;
`none` means NULL). -/
def alterAdd (dflt : String → Option String) (c : ColumnSpec) (s : DbState) :
    DbState × Option String :=
  if (colNames s).contains c.name then
    (s, some ("duplicate column name: " ++ c.name))
  else
    ({ hasProducts := s.hasProducts,
       columns := s.columns ++ [c],
       rows := s.rows.map (fun r => r ++ [(c.name, dflt c.ddl)]) }, none)

/-- Engine under injected storage faults: when the fault oracle names the
column being altered, the statement fails with that error and no state change
(connection unavailable, permission denied, ...); otherwise the engine behaves
normally. -/
def alterFault (dflt : String → Option String) (fault : String → Option String)
    (c : ColumnSpec) (s : DbState) : DbState × Option String :=
  match fault c.name with
  | some e => (s, some e)
  | none => alterAdd dflt c s

/-- Engine under the concurrent-startup race: for a raced column, another
reconciler adds the same column between our introspection and our ALTER, so
our ALTER hits the engine's duplicate-column error. -/
def alterRace (dflt : String → Option String) (raced : List String)
    (c : ColumnSpec) (s : DbState) : DbState × Option String :=
  if raced.contains c.name then
    alterAdd dflt c (alterAdd dflt c s).1
  else
    alterAdd dflt c s

/-- Engine semantics of `CREATE TABLE products (...)`: SQLite rejects a
declaration with a duplicate column name; otherwise the table is created empty
with exactly the declared columns. -/
def createProducts (cols : List ColumnSpec) (_s : DbState) : Except String DbState :=
  if (cols.map (fun c => c.name)).Nodup then Except.ok ⟨true, cols, []⟩
  else Except.error "duplicate column name"

/-- Outcome of the column-addition loop of `ensureTable`: the final database
state, the ALTER statements issued (each recorded as the ColumnSpec whose name
and ddl were interpolated into the statement), and either the rejection error
or the list of added column names. -/
structure LoopOut where
  state : DbState
  trace : List ColumnSpec
  outcome : Except String (List String)

/-- Loop of `ensureTable` (`for (const col of missing) { await run(db, ...);
added.push(col.name); }`): each missing column is altered in turn; a rejected
ALTER aborts the whole async function with that error. -/
def addMissing (alter : ColumnSpec → DbState → DbState × Option String) :
    List ColumnSpec → DbState → LoopOut
  | [], s => ⟨s, [], Except.ok []⟩
  | c :: cs, s =>
    match alter c s with
    | (s', some e) => ⟨s', [c], Except.error e⟩
    | (s', none) =>
      let rest := addMissing alter cs s'
      ⟨rest.state, c :: rest.trace, Except.map (fun l => c.name :: l) rest.outcome⟩

/-- TargetSchema columns whose names introspection does not report:
`EXPECTED_COLUMNS.filter(c => !have.has(c.name))` in the source. -/
def missingOf (expected : List ColumnSpec) (s : DbState) : List ColumnSpec :=
  expected.filter (fun c => !((colNames s).contains c.name))

/-- ReconciliationResult: `{ created, added }` as returned by `ensureTable`. -/
structure EnsureResult where
  created : Bool
  added : List String
deriving DecidableEq, Repr

/-- Full observable outcome of one `ensureTable` invocation: final database
state, ALTER statements issued, and the promise's outcome. -/
structure RunOut where
  state : DbState
  alters : List ColumnSpec
  outcome : Except String EnsureResult

/-- ensureTable from `db/migrations/ensure-products-schema.js`, generalized
over the TargetSchema list (the source fixes it to `EXPECTED_COLUMNS`) and
over the ALTER behaviour of the opaque `db` handle it receives. -/
def ensureTableGen (alter : ColumnSpec → DbState → DbState × Option String)
    (expected : List ColumnSpec) (s : DbState) : RunOut :=
  if s.hasProducts = false then
    match createProducts (idColumn :: expected) s with
    | Except.error e => ⟨s, [], Except.error e⟩
    | Except.ok s' => ⟨s', [], Except.ok ⟨true, []⟩⟩
  else
    let out := addMissing alter (missingOf expected s) s
    ⟨out.state, out.trace, Except.map (fun l => ⟨false, l⟩) out.outcome⟩

/-- ensureTable exactly as the source runs it: `EXPECTED_COLUMNS` against the
real engine semantics. -/
def ensureTable (dflt : String → Option String) (s : DbState) : RunOut :=
  ensureTableGen (alterAdd dflt) EXPECTED_COLUMNS s

/-- Entries a run of added columns appends to every row: one (name, default)
pair per added column. -/
def addedEntries (dflt : String → Option String) (cs : List ColumnSpec) : Row :=
  cs.map (fun c => (c.name, dflt c.ddl))

/-- Database state after the engine has added the columns `cs`: original
columns and row values untouched, `cs` appended, each row extended by the
added columns' default values. -/
def stateAfterAdds (dflt : String → Option String) (cs : List ColumnSpec)
    (s : DbState) : DbState :=
  { hasProducts := s.hasProducts,
    columns := s.columns ++ cs,
    rows := s.rows.map (fun r => r ++ addedEntries dflt cs) }

/-- desiredColumns literal from `extendProductSchema` in `server.js`. -/
def desiredColumns : List String := ["thc", "cbd", "effects", "aroma", "terpenes"]

/-- listStartsWith hay needle: needle occurs at the start of hay. -/
def listStartsWith : List Char → List Char → Bool
  | _, [] => true
  | [], _ :: _ => false
  | a :: as, b :: bs => a == b && listStartsWith as bs

/-- listHasSub needle hay: needle occurs somewhere in hay. -/
def listHasSub (needle : List Char) : List Char → Bool
  | [] => listStartsWith [] needle
  | a :: hay => listStartsWith (a :: hay) needle || listHasSub needle hay

/-- ASCII case folding performed by the regex `/i` flag. -/
def charLower (c : Char) : Char :=
  if 'A' ≤ c ∧ c ≤ 'Z' then Char.ofNat (c.toNat + 32) else c

/-- Test `/duplicate column name/i.test(msg)` from `server.js`. -/
def dupColumnTest (msg : String) : Bool :=
  listHasSub ("duplicate column name".data) (msg.data.map charLower)

/-- Loop of `extendProductSchema` (`server.js`): `existing` is the column list
introspected once up front; for each desired column not in it, issue
`ALTER TABLE products ADD COLUMN col TEXT DEFAULT ''` and log the error via
console.error unless its message matches the duplicate-column regex; the loop
always continues to the next column. -/
def extendLoop (alter : ColumnSpec → DbState → DbState × Option String)
    (existing : List String) :
    List String → DbState → List String → DbState × List String
  | [], s, log => (s, log)
  | col :: cs, s, log =>
    if existing.contains col then extendLoop alter existing cs s log
    else
      match alter ⟨col, "TEXT DEFAULT ''"⟩ s with
      | (s', none) => extendLoop alter existing cs s' log
      | (s', some m) =>
        if dupColumnTest m then extendLoop alter existing cs s' log
        else extendLoop alter existing cs s'
          (log ++ ["Error adding column " ++ col ++ " " ++ m])

/-- extendProductSchema from `server.js`: introspects the products columns
once, then attempts to add each missing desired column; returns the final
state and the console.error log lines (duplicate-column failures produce
none). -/
def extendProductSchema (alter : ColumnSpec → DbState → DbState × Option String)
    (s : DbState) : DbState × List String :=
  extendLoop alter (colNames s) desiredColumns s []

/-- Day of the week of a calendar day counted in days from 1970-01-01 (a
Thursday), matching `Date.getDay()`: Sunday = 0, ..., Saturday = 6. -/
def dayOfWeek (d : Int) : Int := (d + 4) % 7

/-- getLastWorkdayDate from `server.js`: the current date, moved back to the
preceding Friday when it is a Saturday (one day back) or a Sunday (two days
back). -/
def getLastWorkdayDate (d : Int) : Int :=
  if dayOfWeek d = 6 then d - 1
  else if dayOfWeek d = 0 then d - 2
  else d

/-- JavaScript value as far as `formatISOToDisplay` distinguishes its input:
null or undefined, a string, or any non-string value. -/
inductive JSValue where
  | nullV
  | str (s : String)
  | nonString
deriving DecidableEq, Repr

/-- JavaScript `split('-')` on the underlying characters: every occurrence of
the separator splits, empty pieces are kept. -/
def splitDash : List Char → List (List Char)
  | [] => [[]]
  | c :: rest =>
    match splitDash rest with
    | [] => [[]]
    | p :: ps => if c = '-' then [] :: p :: ps else (c :: p) :: ps

/-- JavaScript `String(year).slice(-2)`: the last two characters (the whole
string when it is shorter). -/
def sliceLastTwo (s : String) : String := String.mk (s.data.drop (s.data.length - 2))

/-- formatISOToDisplay from `server.js`: empty string for null, undefined,
empty or non-string input; the input unchanged unless `split('-')` yields
exactly three parts; otherwise `day.month.YY`. The JavaScript function is a
straight-line total function, so the embedding returns `String`, not an
error-carrying type: no input makes it throw. -/
def formatISOToDisplay : JSValue → String
  | JSValue.str s =>
    if s = "" then ""
    else
      match (splitDash s.data).map String.mk with
      | [y, m, dd] => dd ++ "." ++ m ++ "." ++ sliceLastTwo y
      | _ => s
  | _ => ""

/-! Helper lemmas -/

lemma stateAfterAdds_nil (dflt : String → Option String) (s : DbState) :
    stateAfterAdds dflt [] s = s := by
  simp [stateAfterAdds, addedEntries]

lemma stateAfterAdds_cons (dflt : String → Option String) (c : ColumnSpec)
    (cs : List ColumnSpec) (s : DbState) :
    stateAfterAdds dflt cs
      ⟨s.hasProducts, s.columns ++ [c], s.rows.map (fun r => r ++ [(c.name, dflt c.ddl)])⟩
      = stateAfterAdds dflt (c :: cs) s := by
  simp [stateAfterAdds, addedEntries, List.map_map, Function.comp_def]

lemma colNames_append_one (s : DbState) (c : ColumnSpec) :
    colNames ⟨s.hasProducts, s.columns ++ [c], s.rows.map (fun r => r ++ [(c.name, v)])⟩
      = colNames s ++ [c.name] := by
  simp [colNames]

lemma alterAdd_success (dflt : String → Option String) (c : ColumnSpec) (s : DbState)
    (hc : c.name ∉ colNames s) :
    alterAdd dflt c s =
      (⟨s.hasProducts, s.columns ++ [c], s.rows.map (fun r => r ++ [(c.name, dflt c.ddl)])⟩,
       none) := by
  simp [alterAdd, hc]

lemma addMissing_ok (dflt : String → Option String) (cs : List ColumnSpec) :
    ∀ s : DbState, (∀ c ∈ cs, c.name ∉ colNames s) →
      ((cs.map (fun c => c.name)).Nodup) →
      addMissing (alterAdd dflt) cs s =
        ⟨stateAfterAdds dflt cs s, cs, Except.ok (cs.map (fun c => c.name))⟩ := by
  induction cs with
  | nil =>
    intro s _ _
    simp [addMissing, stateAfterAdds_nil]
  | cons c cs ih =>
    intro s hdisj hnd
    have hc : c.name ∉ colNames s := hdisj c (List.mem_cons_self c cs)
    have hnames : colNames ⟨s.hasProducts, s.columns ++ [c],
        s.rows.map (fun r => r ++ [(c.name, dflt c.ddl)])⟩ = colNames s ++ [c.name] :=
      colNames_append_one s c
    have hdisj' : ∀ x ∈ cs, x.name ∉ colNames ⟨s.hasProducts, s.columns ++ [c],
        s.rows.map (fun r => r ++ [(c.name, dflt c.ddl)])⟩ := by
      intro x hx
      rw [hnames]
      have h1 : x.name ∉ colNames s := hdisj x (List.mem_cons_of_mem _ hx)
      have h2 : x.name ≠ c.name := by
        intro he
        apply (List.nodup_cons.mp hnd).1
        show c.name ∈ List.map (fun c => c.name) cs
        rw [← he]
        exact List.mem_map_of_mem _ hx
      simp [h1, h2]
    have hrec := ih _ hdisj' (List.nodup_cons.mp hnd).2
    simp only [addMissing, alterAdd_success dflt c s hc, hrec, stateAfterAdds_cons,
      Except.map, List.map_cons]

lemma addMissing_ok_names (dflt : String → Option String) (cs : List ColumnSpec) :
    ∀ (s : DbState) (l : List String),
      (addMissing (alterAdd dflt) cs s).outcome = Except.ok l →
      colNames (addMissing (alterAdd dflt) cs s).state
          = colNames s ++ cs.map (fun c => c.name) ∧
      (addMissing (alterAdd dflt) cs s).state.hasProducts = s.hasProducts := by
  induction cs with
  | nil =>
    intro s l _
    simp [addMissing]
  | cons c cs ih =>
    intro s l h
    by_cases hc : c.name ∈ colNames s
    · simp [addMissing, alterAdd, hc, Except.map] at h
    · rw [addMissing, alterAdd_success dflt c s hc] at h ⊢
      simp only at h ⊢
      cases hout : (addMissing (alterAdd dflt) cs ⟨s.hasProducts, s.columns ++ [c],
          s.rows.map (fun r => r ++ [(c.name, dflt c.ddl)])⟩).outcome with
      | error e =>
        rw [hout] at h
        simp [Except.map] at h
      | ok l' =>
        obtain ⟨h1, h2⟩ := ih _ l' hout
        rw [h1, h2, colNames_append_one]
        simp

lemma addMissing_fault_none (dflt fault : String → Option String) (cs : List ColumnSpec) :
    ∀ s : DbState, (∀ c ∈ cs, fault c.name = none) →
      addMissing (alterFault dflt fault) cs s = addMissing (alterAdd dflt) cs s := by
  induction cs with
  | nil => intro s _; rfl
  | cons c cs ih =>
    intro s h
    have hc : alterFault dflt fault c s = alterAdd dflt c s := by
      simp [alterFault, h c (List.mem_cons_self c cs)]
    rw [addMissing, addMissing, hc]
    cases halt : alterAdd dflt c s with
    | mk s' eopt =>
      cases eopt with
      | some e => rfl
      | none =>
        simp only [ih s' (fun x hx => h x (List.mem_cons_of_mem _ hx))]

lemma addMissing_fault_err (dflt fault : String → Option String) (e : String)
    (pre : List ColumnSpec) :
    ∀ (mid : ColumnSpec) (post : List ColumnSpec) (s : DbState),
      (∀ c ∈ pre ++ mid :: post, c.name ∉ colNames s) →
      (((pre ++ mid :: post).map (fun c => c.name)).Nodup) →
      (∀ c ∈ pre, fault c.name = none) →
      fault mid.name = some e →
      addMissing (alterFault dflt fault) (pre ++ mid :: post) s =
        ⟨stateAfterAdds dflt pre s, pre ++ [mid], Except.error e⟩ := by
  induction pre with
  | nil =>
    intro mid post s _ _ _ hmid
    have hstep : alterFault dflt fault mid s = (s, some e) := by
      simp [alterFault, hmid]
    rw [List.nil_append, addMissing, hstep]
    simp [stateAfterAdds_nil]
  | cons c pre ih =>
    intro mid post s hdisj hnd hpre hmid
    have hc : c.name ∉ colNames s := hdisj c (List.mem_cons_self _ _)
    have hstep : alterFault dflt fault c s = alterAdd dflt c s := by
      simp [alterFault, hpre c (List.mem_cons_self _ _)]
    have hnames := colNames_append_one (v := dflt c.ddl) s c
    have hnd' : (c.name :: (pre ++ mid :: post).map (fun c => c.name)).Nodup := by
      simpa using hnd
    have hdisj' : ∀ x ∈ pre ++ mid :: post, x.name ∉ colNames ⟨s.hasProducts,
        s.columns ++ [c], s.rows.map (fun r => r ++ [(c.name, dflt c.ddl)])⟩ := by
      intro x hx
      rw [hnames]
      have h1 : x.name ∉ colNames s := hdisj x (List.mem_cons_of_mem _ hx)
      have h2 : x.name ≠ c.name := by
        intro he
        apply (List.nodup_cons.mp hnd').1
        show c.name ∈ List.map (fun c => c.name) (pre ++ mid :: post)
        rw [← he]
        exact List.mem_map_of_mem _ hx
      simp [h1, h2]
    have hrec := ih mid post _ hdisj' (List.nodup_cons.mp hnd').2
      (fun x hx => hpre x (List.mem_cons_of_mem _ hx)) hmid
    rw [List.cons_append, addMissing, hstep, alterAdd_success dflt c s hc]
    simp only [hrec, stateAfterAdds_cons]
    rfl

lemma addMissing_extends (dflt fault : String → Option String) (cs : List ColumnSpec) :
    ∀ s : DbState, ∃ cs' : List ColumnSpec,
      (∀ c ∈ cs', c.name ∉ colNames s) ∧
      (addMissing (alterFault dflt fault) cs s).state = stateAfterAdds dflt cs' s := by
  induction cs with
  | nil =>
    intro s
    exact ⟨[], by simp, by simp [addMissing, stateAfterAdds_nil]⟩
  | cons c cs ih =>
    intro s
    cases hf : fault c.name with
    | some e =>
      refine ⟨[], by simp, ?_⟩
      rw [addMissing]
      have hstep : alterFault dflt fault c s = (s, some e) := by simp [alterFault, hf]
      rw [hstep]
      simp [stateAfterAdds_nil]
    | none =>
      have hstep : alterFault dflt fault c s = alterAdd dflt c s := by simp [alterFault, hf]
      by_cases hc : c.name ∈ colNames s
      · refine ⟨[], by simp, ?_⟩
        rw [addMissing, hstep]
        have : alterAdd dflt c s = (s, some ("duplicate column name: " ++ c.name)) := by
          simp [alterAdd, hc]
        rw [this]
        simp [stateAfterAdds_nil]
      · obtain ⟨cs', h1, h2⟩ := ih ⟨s.hasProducts, s.columns ++ [c],
          s.rows.map (fun r => r ++ [(c.name, dflt c.ddl)])⟩
        refine ⟨c :: cs', ?_, ?_⟩
        · intro x hx
          rcases List.mem_cons.mp hx with hxc | hxcs
          · rw [hxc]; exact hc
          · intro hmem
            exact h1 x hxcs (by rw [colNames_append_one]; exact List.mem_append_left _ hmem)
        · rw [addMissing, hstep, alterAdd_success dflt c s hc]
          simp only [h2, stateAfterAdds_cons]

lemma missingOf_disjoint (expected : List ColumnSpec) (s : DbState) :
    ∀ c ∈ missingOf expected s, c.name ∉ colNames s := by
  intro c hc
  have h := (List.mem_filter.mp hc).2
  simpa using h

lemma missingOf_sub (expected : List ColumnSpec) (s : DbState) :
    ∀ c ∈ missingOf expected s, c ∈ expected :=
  fun _ hc => (List.mem_filter.mp hc).1

lemma missingOf_nodup (expected : List ColumnSpec) (s : DbState)
    (hnd : (expected.map (fun c => c.name)).Nodup) :
    ((missingOf expected s).map (fun c => c.name)).Nodup :=
  hnd.sublist ((List.filter_sublist expected).map _)

lemma ensureTable_existing (dflt : String → Option String) (expected : List ColumnSpec)
    (s0 : DbState) (hp : s0.hasProducts = true)
    (hnd : (expected.map (fun c => c.name)).Nodup) :
    ensureTableGen (alterAdd dflt) expected s0 =
      ⟨stateAfterAdds dflt (missingOf expected s0) s0,
       missingOf expected s0,
       Except.ok ⟨false, (missingOf expected s0).map (fun c => c.name)⟩⟩ := by
  have hrun := addMissing_ok dflt (missingOf expected s0) s0
    (missingOf_disjoint expected s0) (missingOf_nodup expected s0 hnd)
  simp [ensureTableGen, hp, hrun, Except.map]

/-! C3: creation path -/

/-- C3. Creation path: whenever the products table does not exist (and the
TargetSchema together with the synthetic key has well-formed, pairwise
distinct column names, the validity precondition of the spec's data model),
reconcile creates the table with the synthetic auto-incrementing primary key
column `id INTEGER PRIMARY KEY AUTOINCREMENT` followed by every TargetSchema
column in declared order, issues no ALTER statement, and returns
created = true, addedColumns = []. Stated for an arbitrary engine behaviour
`alter` of the db handle, since the creation path never alters. -/
theorem ensureTable_creation (alter : ColumnSpec → DbState → DbState × Option String)
    (expected : List ColumnSpec) (s0 : DbState)
    (hp : s0.hasProducts = false)
    (hnd : ((idColumn :: expected).map (fun c => c.name)).Nodup) :
    ensureTableGen alter expected s0 =
      ⟨⟨true, idColumn :: expected, []⟩, [], Except.ok ⟨true, []⟩⟩ := by
  simp only [ensureTableGen, createProducts]
  rw [if_pos hp, if_pos hnd]

/-- Witness for C3: an empty database and the source's EXPECTED_COLUMNS. -/
theorem ensureTable_creation_witness :
    ((⟨false, [], []⟩ : DbState).hasProducts = false) ∧
    ensureTableGen (alterAdd (fun _ => none)) EXPECTED_COLUMNS ⟨false, [], []⟩ =
      ⟨⟨true, idColumn :: EXPECTED_COLUMNS, []⟩, [], Except.ok ⟨true, []⟩⟩ :=
  ⟨rfl, ensureTable_creation _ _ _ rfl (by decide)⟩

/-! C4: partial catch-up -/

/-- C4. Partial catch-up: whenever the table exists and the TargetSchema's
column names are pairwise distinct (the spec's data-model invariant),
reconcile adds exactly the columns of the TargetSchema whose names the table
lacks, in TargetSchema declaration order, and returns created = false and
addedColumns = that list of names; columns already present are not added
again (they are excluded by the filter, and the final column list is exactly
the original list with only the missing columns appended). Prior rows acquire
the declared default value (or NULL when the engine's reading `dflt` of the
declaration yields none) for each new column, per `stateAfterAdds`. -/
theorem ensureTable_partial_catchup (dflt : String → Option String)
    (expected : List ColumnSpec) (s0 : DbState)
    (hp : s0.hasProducts = true)
    (hnd : (expected.map (fun c => c.name)).Nodup) :
    ensureTableGen (alterAdd dflt) expected s0 =
      ⟨stateAfterAdds dflt (missingOf expected s0) s0,
       missingOf expected s0,
       Except.ok ⟨false, (missingOf expected s0).map (fun c => c.name)⟩⟩ :=
  ensureTable_existing dflt expected s0 hp hnd

/-- Witness for C4: a table holding id, title, price, image and one data row;
the run returns created = false with exactly the ten missing names in
declaration order, and the row keeps its old values and acquires NULLs. -/
theorem ensureTable_partial_catchup_witness :
    ((⟨true, [idColumn, ⟨"title", "TEXT"⟩, ⟨"price", "REAL"⟩, ⟨"image", "TEXT"⟩],
        [[("id", some "1"), ("title", some "Amnesia Haze"), ("price", some "9.5"),
          ("image", none)]]⟩ : DbState).hasProducts = true) ∧
    ensureTableGen (alterAdd (fun _ => none)) EXPECTED_COLUMNS
        ⟨true, [idColumn, ⟨"title", "TEXT"⟩, ⟨"price", "REAL"⟩, ⟨"image", "TEXT"⟩],
         [[("id", some "1"), ("title", some "Amnesia Haze"), ("price", some "9.5"),
           ("image", none)]]⟩ =
      ⟨stateAfterAdds (fun _ => none)
         (missingOf EXPECTED_COLUMNS
           ⟨true, [idColumn, ⟨"title", "TEXT"⟩, ⟨"price", "REAL"⟩, ⟨"image", "TEXT"⟩],
            [[("id", some "1"), ("title", some "Amnesia Haze"), ("price", some "9.5"),
              ("image", none)]]⟩)
         ⟨true, [idColumn, ⟨"title", "TEXT"⟩, ⟨"price", "REAL"⟩, ⟨"image", "TEXT"⟩],
          [[("id", some "1"), ("title", some "Amnesia Haze"), ("price", some "9.5"),
            ("image", none)]]⟩,
       missingOf EXPECTED_COLUMNS
         ⟨true, [idColumn, ⟨"title", "TEXT"⟩, ⟨"price", "REAL"⟩, ⟨"image", "TEXT"⟩],
          [[("id", some "1"), ("title", some "Amnesia Haze"), ("price", some "9.5"),
            ("image", none)]]⟩,
       Except.ok ⟨false, ["description", "thc", "cbd", "effects", "aroma", "terpenes",
         "strain_type", "is_active", "created_at", "updated_at"]⟩⟩ := by
  refine ⟨rfl, ?_⟩
  rw [ensureTable_partial_catchup (fun _ => none) EXPECTED_COLUMNS _ rfl (by decide)]
  rfl

/-! C5: no destructive action -/

/-- C5. No destructive action: for every invocation on an existing table,
under any fault schedule (so including invocations that fail mid-way and
invocations that complete), the final state is `stateAfterAdds` of some list
of columns whose names were all absent from the original table: the original
column list is preserved verbatim as a prefix (no column is removed, renamed
or retyped — in particular a live column absent from the TargetSchema is left
unchanged), and every original row keeps its values for the original columns,
acquiring only the declared default (or NULL) for the newly added ones. -/
theorem ensureTable_nondestructive (dflt fault : String → Option String)
    (expected : List ColumnSpec) (s0 : DbState) (hp : s0.hasProducts = true) :
    ∃ cs : List ColumnSpec,
      (∀ c ∈ cs, c.name ∉ colNames s0) ∧
      (ensureTableGen (alterFault dflt fault) expected s0).state =
        stateAfterAdds dflt cs s0 := by
  obtain ⟨cs, h1, h2⟩ := addMissing_extends dflt fault (missingOf expected s0) s0
  refine ⟨cs, h1, ?_⟩
  simpa [ensureTableGen, hp] using h2

/-- Witness for C5: a table with a legacy column absent from the
TargetSchema and a data row, under a fault schedule failing on "cbd". -/
theorem ensureTable_nondestructive_witness :
    ((⟨true, [idColumn, ⟨"title", "TEXT"⟩, ⟨"legacy_notes", "TEXT"⟩],
        [[("id", some "1"), ("title", some "OG Kush"), ("legacy_notes", none)]]⟩ :
        DbState).hasProducts = true) ∧
    ∃ cs : List ColumnSpec,
      (∀ c ∈ cs, c.name ∉ colNames ⟨true, [idColumn, ⟨"title", "TEXT"⟩,
          ⟨"legacy_notes", "TEXT"⟩],
          [[("id", some "1"), ("title", some "OG Kush"), ("legacy_notes", none)]]⟩) ∧
      (ensureTableGen
          (alterFault (fun _ => none)
            (fun n => if n == "cbd" then some "SQLITE_READONLY" else none))
          EXPECTED_COLUMNS
          ⟨true, [idColumn, ⟨"title", "TEXT"⟩, ⟨"legacy_notes", "TEXT"⟩],
           [[("id", some "1"), ("title", some "OG Kush"), ("legacy_notes", none)]]⟩).state =
        stateAfterAdds (fun _ => none) cs
          ⟨true, [idColumn, ⟨"title", "TEXT"⟩, ⟨"legacy_notes", "TEXT"⟩],
           [[("id", some "1"), ("title", some "OG Kush"), ("legacy_notes", none)]]⟩ :=
  ⟨rfl, ensureTable_nondestructive (fun _ => none)
    (fun n => if n == "cbd" then some "SQLITE_READONLY" else none)
    EXPECTED_COLUMNS _ rfl⟩

/-! C7: declaration fidelity -/

/-- C7. Declaration fidelity: on an existing table with a well-formed
TargetSchema, every ALTER statement the reconciler issues carries exactly a
TargetSchema ColumnSpec — the declared name and the declaration string
verbatim, as the source interpolates `col.name` and `col.ddl` unchanged — and
that very spec (name, type and default) is what introspecting the final table
reports for the newly added column. -/
theorem ensureTable_declaration_fidelity (dflt : String → Option String)
    (expected : List ColumnSpec) (s0 : DbState)
    (hp : s0.hasProducts = true)
    (hnd : (expected.map (fun c => c.name)).Nodup) :
    ∀ c ∈ (ensureTableGen (alterAdd dflt) expected s0).alters,
      c ∈ expected ∧ c ∈ (ensureTableGen (alterAdd dflt) expected s0).state.columns := by
  rw [ensureTable_existing dflt expected s0 hp hnd]
  intro c hc
  refine ⟨missingOf_sub expected s0 c hc, ?_⟩
  show c ∈ s0.columns ++ missingOf expected s0
  exact List.mem_append_right _ hc

/-- Witness for C7: the spec ("thc", "TEXT") is issued and introspection of
the final table reports it verbatim. -/
theorem ensureTable_declaration_fidelity_witness :
    ((⟨true, [idColumn, ⟨"title", "TEXT"⟩], []⟩ : DbState).hasProducts = true) ∧
    (⟨"thc", "TEXT"⟩ : ColumnSpec) ∈ (ensureTableGen (alterAdd (fun _ => none))
        EXPECTED_COLUMNS ⟨true, [idColumn, ⟨"title", "TEXT"⟩], []⟩).alters ∧
    ((⟨"thc", "TEXT"⟩ : ColumnSpec) ∈ EXPECTED_COLUMNS ∧
      (⟨"thc", "TEXT"⟩ : ColumnSpec) ∈ (ensureTableGen (alterAdd (fun _ => none))
        EXPECTED_COLUMNS ⟨true, [idColumn, ⟨"title", "TEXT"⟩], []⟩).state.columns) :=
  ⟨rfl, by decide,
    ensureTable_declaration_fidelity (fun _ => none) EXPECTED_COLUMNS
      ⟨true, [idColumn, ⟨"title", "TEXT"⟩], []⟩ rfl (by decide) ⟨"thc", "TEXT"⟩ (by decide)⟩

lemma ensureTable_noop (dflt : String → Option String) (expected : List ColumnSpec)
    (s1 : DbState) (h1 : s1.hasProducts = true)
    (h2 : ∀ c ∈ expected, c.name ∈ colNames s1) :
    ensureTableGen (alterAdd dflt) expected s1 = ⟨s1, [], Except.ok ⟨false, []⟩⟩ := by
  have hm : missingOf expected s1 = [] := by
    apply List.filter_eq_nil_iff.mpr
    intro c hc
    simp [h2 c hc]
  simp [ensureTableGen, h1, hm, addMissing, Except.map]

lemma ensureTable_ok_covers (dflt : String → Option String) (expected : List ColumnSpec)
    (s0 : DbState) (r1 : EnsureResult)
    (h : (ensureTableGen (alterAdd dflt) expected s0).outcome = Except.ok r1) :
    (ensureTableGen (alterAdd dflt) expected s0).state.hasProducts = true ∧
    ∀ c ∈ expected, c.name ∈ colNames (ensureTableGen (alterAdd dflt) expected s0).state := by
  by_cases hb : s0.hasProducts = false
  · by_cases hnd : ((idColumn :: expected).map (fun c => c.name)).Nodup
    · rw [ensureTable_creation (alterAdd dflt) expected s0 hb hnd]
      refine ⟨rfl, ?_⟩
      intro c hc
      show c.name ∈ (idColumn :: expected).map (fun c => c.name)
      exact List.mem_cons_of_mem _ (List.mem_map_of_mem _ hc)
    · exfalso
      rw [ensureTableGen] at h
      rw [if_pos hb] at h
      rw [createProducts, if_neg hnd] at h
      simp at h
  · have hb' : s0.hasProducts = true := by
      cases hx : s0.hasProducts
      · exact absurd hx hb
      · rfl
    rw [ensureTableGen, if_neg hb] at h ⊢
    simp only at h ⊢
    cases hout : (addMissing (alterAdd dflt) (missingOf expected s0) s0).outcome with
    | error e =>
      rw [hout] at h
      simp [Except.map] at h
    | ok l =>
      obtain ⟨hnm, hhp⟩ := addMissing_ok_names dflt (missingOf expected s0) s0 l hout
      refine ⟨by rw [hhp, hb'], ?_⟩
      intro c hc
      rw [hnm]
      by_cases hcm : c.name ∈ colNames s0
      · exact List.mem_append_left _ hcm
      · refine List.mem_append_right _ ?_
        refine List.mem_map_of_mem _ ?_
        exact List.mem_filter.mpr ⟨hc, by simp [hcm]⟩

/-! C1: idempotence -/

/-- C1. Idempotence: for every initial database state, every TargetSchema and
every default semantics of the engine, if a first run of reconcile succeeds
then a second run immediately after returns created = false and
addedColumns = [], issues no ALTER statement, and leaves the database state —
in particular the table's column set — exactly as the first run left it. -/
theorem ensureTable_idempotent (dflt : String → Option String)
    (expected : List ColumnSpec) (s0 : DbState) (r1 : EnsureResult)
    (h : (ensureTableGen (alterAdd dflt) expected s0).outcome = Except.ok r1) :
    ensureTableGen (alterAdd dflt) expected (ensureTableGen (alterAdd dflt) expected s0).state =
      ⟨(ensureTableGen (alterAdd dflt) expected s0).state, [], Except.ok ⟨false, []⟩⟩ := by
  obtain ⟨h1, h2⟩ := ensureTable_ok_covers dflt expected s0 r1 h
  exact ensureTable_noop dflt expected _ h1 h2

/-- Witness for C1: first run creates the table in an empty database, second
run is a no-op returning created = false, addedColumns = []. -/
theorem ensureTable_idempotent_witness :
    ((ensureTableGen (alterAdd (fun _ => none)) EXPECTED_COLUMNS ⟨false, [], []⟩).outcome
      = Except.ok ⟨true, []⟩) ∧
    ensureTableGen (alterAdd (fun _ => none)) EXPECTED_COLUMNS
        (ensureTableGen (alterAdd (fun _ => none)) EXPECTED_COLUMNS ⟨false, [], []⟩).state =
      ⟨(ensureTableGen (alterAdd (fun _ => none)) EXPECTED_COLUMNS ⟨false, [], []⟩).state,
       [], Except.ok ⟨false, []⟩⟩ :=
  ⟨by rfl, ensureTable_idempotent (fun _ => none) EXPECTED_COLUMNS ⟨false, [], []⟩
    ⟨true, []⟩ (by rfl)⟩

/-! C6: fatal-failure propagation -/

/-- C6. Fatal-failure propagation: on an existing table with a well-formed
TargetSchema, whenever the injected storage fault schedule makes the ALTER of
some missing column `mid` fail with an error `e` that is not the
duplicate-column condition (the columns `pre` attempted before it succeed),
the reconciler rejects with exactly that error `e` unmodified; the issued
statements are exactly one ALTER per column of `pre` and then the failing one
for `mid` (a single pass, no retry and nothing after the failure), and the
final state is `stateAfterAdds pre`: the columns added before the failure
remain added — no rollback. -/
theorem ensureTable_fatal_propagation (dflt fault : String → Option String)
    (expected : List ColumnSpec) (s0 : DbState)
    (pre : List ColumnSpec) (mid : ColumnSpec) (post : List ColumnSpec) (e : String)
    (hp : s0.hasProducts = true)
    (hnd : (expected.map (fun c => c.name)).Nodup)
    (hmiss : missingOf expected s0 = pre ++ mid :: post)
    (hpre : ∀ c ∈ pre, fault c.name = none)
    (hmid : fault mid.name = some e) :
    ensureTableGen (alterFault dflt fault) expected s0 =
      ⟨stateAfterAdds dflt pre s0, pre ++ [mid], Except.error e⟩ := by
  have hdisj : ∀ c ∈ pre ++ mid :: post, c.name ∉ colNames s0 := by
    rw [← hmiss]
    exact missingOf_disjoint expected s0
  have hnd2 : ((pre ++ mid :: post).map (fun c => c.name)).Nodup := by
    rw [← hmiss]
    exact missingOf_nodup expected s0 hnd
  have hrun := addMissing_fault_err dflt fault e pre mid post s0 hdisj hnd2 hpre hmid
  rw [ensureTableGen, if_neg (by simp [hp]), hmiss, hrun]
  rfl

/-- Witness for C6: table holding id and title; the fault schedule fails the
ALTER of "image" with a connection error after "price" was added; the error
surfaces verbatim, "price" stays added, nothing after "image" is attempted. -/
theorem ensureTable_fatal_propagation_witness :
    ((⟨true, [idColumn, ⟨"title", "TEXT"⟩], []⟩ : DbState).hasProducts = true ∧
      missingOf EXPECTED_COLUMNS ⟨true, [idColumn, ⟨"title", "TEXT"⟩], []⟩ =
        [⟨"price", "REAL"⟩] ++ ⟨"image", "TEXT"⟩ ::
          [⟨"description", "TEXT"⟩, ⟨"thc", "TEXT"⟩, ⟨"cbd", "TEXT"⟩,
           ⟨"effects", "TEXT"⟩, ⟨"aroma", "TEXT"⟩, ⟨"terpenes", "TEXT"⟩,
           ⟨"strain_type", "TEXT"⟩, ⟨"is_active", "INTEGER DEFAULT 1"⟩,
           ⟨"created_at", "DATETIME DEFAULT CURRENT_TIMESTAMP"⟩,
           ⟨"updated_at", "DATETIME DEFAULT CURRENT_TIMESTAMP"⟩]) ∧
    ensureTableGen
        (alterFault (fun _ => none)
          (fun n => if n == "image" then some "SQLITE_CANTOPEN: unable to open database file"
            else none))
        EXPECTED_COLUMNS ⟨true, [idColumn, ⟨"title", "TEXT"⟩], []⟩ =
      ⟨stateAfterAdds (fun _ => none) [⟨"price", "REAL"⟩]
         ⟨true, [idColumn, ⟨"title", "TEXT"⟩], []⟩,
       [⟨"price", "REAL"⟩] ++ [⟨"image", "TEXT"⟩],
       Except.error "SQLITE_CANTOPEN: unable to open database file"⟩ :=
  ⟨⟨rfl, by decide⟩,
    ensureTable_fatal_propagation (fun _ => none)
      (fun n => if n == "image" then some "SQLITE_CANTOPEN: unable to open database file"
        else none)
      EXPECTED_COLUMNS ⟨true, [idColumn, ⟨"title", "TEXT"⟩], []⟩
      [⟨"price", "REAL"⟩] ⟨"image", "TEXT"⟩
      [⟨"description", "TEXT"⟩, ⟨"thc", "TEXT"⟩, ⟨"cbd", "TEXT"⟩,
       ⟨"effects", "TEXT"⟩, ⟨"aroma", "TEXT"⟩, ⟨"terpenes", "TEXT"⟩,
       ⟨"strain_type", "TEXT"⟩, ⟨"is_active", "INTEGER DEFAULT 1"⟩,
       ⟨"created_at", "DATETIME DEFAULT CURRENT_TIMESTAMP"⟩,
       ⟨"updated_at", "DATETIME DEFAULT CURRENT_TIMESTAMP"⟩]
      "SQLITE_CANTOPEN: unable to open database file"
      rfl (by decide) (by decide) (by decide) rfl⟩

lemma listStartsWith_nil (hay : List Char) : listStartsWith hay [] = true := by
  cases hay <;> rfl

lemma listStartsWith_append_of (needle rest : List Char) :
    listStartsWith (needle ++ rest) needle = true := by
  induction needle with
  | nil => exact listStartsWith_nil _
  | cons a as ih =>
    show (a == a && listStartsWith (as ++ rest) as) = true
    simp [ih]

lemma listHasSub_of_starts (needle hay : List Char)
    (h : listStartsWith hay needle = true) : listHasSub needle hay = true := by
  cases hay with
  | nil => simpa [listHasSub] using h
  | cons a t => simp [listHasSub, h]

lemma data_append (x y : String) : (x ++ y).data = x.data ++ y.data := by
  cases x
  cases y
  rfl

lemma dupColumnTest_dupMsg (x : String) :
    dupColumnTest ("duplicate column name: " ++ x) = true := by
  rw [dupColumnTest, data_append, List.map_append]
  apply listHasSub_of_starts
  have hpref : ("duplicate column name: ".data).map charLower =
      "duplicate column name".data ++ ": ".data := by decide
  rw [hpref, List.append_assoc]
  exact listStartsWith_append_of _ _

lemma extendLoop_race (dflt : String → Option String) (raced existing : List String)
    (cs : List String) :
    ∀ (s : DbState) (log : List String),
      cs.Nodup →
      (colNames s).Nodup →
      (∀ col ∈ cs, (col ∈ existing ↔ col ∈ colNames s)) →
      (extendLoop (alterRace dflt raced) existing cs s log).2 = log ∧
      (colNames (extendLoop (alterRace dflt raced) existing cs s log).1).Nodup ∧
      (∀ col ∈ cs, col ∈ colNames (extendLoop (alterRace dflt raced) existing cs s log).1) ∧
      (∀ x ∈ colNames s, x ∈ colNames (extendLoop (alterRace dflt raced) existing cs s log).1) := by
  induction cs with
  | nil =>
    intro s log _ hs _
    exact ⟨rfl, hs, by simp, fun x hx => hx⟩
  | cons col cs ih =>
    intro s log hnd hs hmem
    have hndtl : cs.Nodup := (List.nodup_cons.mp hnd).2
    have hcoltl : col ∉ cs := (List.nodup_cons.mp hnd).1
    by_cases hex : col ∈ existing
    · have hcol : col ∈ colNames s := (hmem col (List.mem_cons_self _ _)).mp hex
      have hred : extendLoop (alterRace dflt raced) existing (col :: cs) s log
          = extendLoop (alterRace dflt raced) existing cs s log := by
        simp [extendLoop, hex]
      obtain ⟨ha, hb, hc, hd⟩ := ih s log hndtl hs
        (fun c hcc => hmem c (List.mem_cons_of_mem _ hcc))
      rw [hred]
      refine ⟨ha, hb, ?_, hd⟩
      intro c hcc
      rcases List.mem_cons.mp hcc with h1 | h1
      · rw [h1]; exact hd col hcol
      · exact hc c h1
    · have hcol : col ∉ colNames s := fun h => hex ((hmem col (List.mem_cons_self _ _)).mpr h)
      have hadd := alterAdd_success dflt ⟨col, "TEXT DEFAULT ''"⟩ s hcol
      have hs1names : colNames ⟨s.hasProducts, s.columns ++ [⟨col, "TEXT DEFAULT ''"⟩],
          s.rows.map (fun r => r ++ [(col, dflt "TEXT DEFAULT ''")])⟩
          = colNames s ++ [col] := colNames_append_one s ⟨col, "TEXT DEFAULT ''"⟩
      have hs1nd : (colNames ⟨s.hasProducts, s.columns ++ [⟨col, "TEXT DEFAULT ''"⟩],
          s.rows.map (fun r => r ++ [(col, dflt "TEXT DEFAULT ''")])⟩).Nodup := by
        rw [hs1names]
        simp [List.nodup_append, hs, hcol]
      have hmem1 : ∀ c ∈ cs, (c ∈ existing ↔ c ∈ colNames ⟨s.hasProducts,
          s.columns ++ [⟨col, "TEXT DEFAULT ''"⟩],
          s.rows.map (fun r => r ++ [(col, dflt "TEXT DEFAULT ''")])⟩) := by
        intro c hcc
        rw [hs1names]
        have hne : c ≠ col := fun he => hcoltl (he ▸ hcc)
        rw [hmem c (List.mem_cons_of_mem _ hcc)]
        simp [hne]
      have hred : extendLoop (alterRace dflt raced) existing (col :: cs) s log
          = extendLoop (alterRace dflt raced) existing cs
              ⟨s.hasProducts, s.columns ++ [⟨col, "TEXT DEFAULT ''"⟩],
               s.rows.map (fun r => r ++ [(col, dflt "TEXT DEFAULT ''")])⟩ log := by
        by_cases hr : col ∈ raced
        · have hstep : alterRace dflt raced ⟨col, "TEXT DEFAULT ''"⟩ s =
              (⟨s.hasProducts, s.columns ++ [⟨col, "TEXT DEFAULT ''"⟩],
                s.rows.map (fun r => r ++ [(col, dflt "TEXT DEFAULT ''")])⟩,
               some ("duplicate column name: " ++ col)) := by
            rw [alterRace, if_pos (by simp [hr]), hadd]
            show alterAdd dflt ⟨col, "TEXT DEFAULT ''"⟩ _ = _
            rw [alterAdd, if_pos (by rw [hs1names]; simp)]
          rw [extendLoop, if_neg (by simp [hex]), hstep]
          simp only [dupColumnTest_dupMsg col]
          simp
        · have hstep : alterRace dflt raced ⟨col, "TEXT DEFAULT ''"⟩ s =
              (⟨s.hasProducts, s.columns ++ [⟨col, "TEXT DEFAULT ''"⟩],
                s.rows.map (fun r => r ++ [(col, dflt "TEXT DEFAULT ''")])⟩, none) := by
            rw [alterRace, if_neg (by simp [hr])]
            exact hadd
          rw [extendLoop, if_neg (by simp [hex]), hstep]
      obtain ⟨ha, hb, hc, hd⟩ := ih _ log hndtl hs1nd hmem1
      rw [hred]
      refine ⟨ha, hb, ?_, ?_⟩
      · intro c hcc
        rcases List.mem_cons.mp hcc with h1 | h1
        · refine h1 ▸ hd col ?_
          rw [hs1names]
          exact List.mem_append_right _ (List.mem_singleton.mpr rfl)
        · exact hc c h1
      · intro x hx
        refine hd x ?_
        rw [hs1names]
        exact List.mem_append_left _ hx

/-! C2: duplicate-column handling -/

/-- C2, counterexample to the claim as stated: `ensureTable` (the reconciler
returning a ReconciliationResult) does NOT treat a duplicate-column ALTER
failure as success. With the products table holding id and title, and a
concurrent reconciler adding "price" between introspection and our ALTER, the
invocation rejects with the duplicate-column error itself and never reaches
the remaining TargetSchema columns: "cbd" is absent from the final table. -/
theorem ensureTable_raises_on_duplicate :
    (ensureTableGen (alterRace (fun _ => none) ["price"]) EXPECTED_COLUMNS
        ⟨true, [idColumn, ⟨"title", "TEXT"⟩], []⟩).outcome
      = Except.error "duplicate column name: price" ∧
    ("cbd" ∈ colNames (ensureTableGen (alterRace (fun _ => none) ["price"]) EXPECTED_COLUMNS
        ⟨true, [idColumn, ⟨"title", "TEXT"⟩], []⟩).state) = False := by
  constructor
  · rfl
  · simp only [eq_iff_iff, iff_false]
    decide

/-- C2, amended: the duplicate-column-as-success policy lives in
`extendProductSchema` (server.js), not in `ensureTable`. For every database
state with well-formed column names and every set of raced columns (each
raced column is added concurrently between the single up-front introspection
and our ALTER, so our ALTER fails with the engine's duplicate-column error),
`extendProductSchema` completes, reports no error at all (the duplicate
failures are swallowed by the `/duplicate column name/i` test), and every
desired column ends up present in the table exactly once (present, in a
duplicate-free column list). -/
theorem extendProductSchema_duplicate_as_success (dflt : String → Option String)
    (raced : List String) (s : DbState) (hnd : (colNames s).Nodup) :
    (extendProductSchema (alterRace dflt raced) s).2 = [] ∧
    (∀ col ∈ desiredColumns, col ∈ colNames (extendProductSchema (alterRace dflt raced) s).1) ∧
    (colNames (extendProductSchema (alterRace dflt raced) s).1).Nodup := by
  have h := extendLoop_race dflt raced (colNames s) desiredColumns s []
    (by decide) hnd (fun c _ => Iff.rfl)
  exact ⟨h.1, h.2.2.1, h.2.1⟩

/-- Witness for C2's amended theorem: table with id and title, racing on
"cbd" and "aroma"; no error line is logged and all five desired columns are
present exactly once afterwards. -/
theorem extendProductSchema_duplicate_as_success_witness :
    ((colNames ⟨true, [idColumn, ⟨"title", "TEXT"⟩], []⟩).Nodup) ∧
    ((extendProductSchema (alterRace (fun _ => none) ["cbd", "aroma"])
        ⟨true, [idColumn, ⟨"title", "TEXT"⟩], []⟩).2 = [] ∧
      (∀ col ∈ desiredColumns, col ∈ colNames (extendProductSchema
        (alterRace (fun _ => none) ["cbd", "aroma"])
        ⟨true, [idColumn, ⟨"title", "TEXT"⟩], []⟩).1) ∧
      (colNames (extendProductSchema (alterRace (fun _ => none) ["cbd", "aroma"])
        ⟨true, [idColumn, ⟨"title", "TEXT"⟩], []⟩).1).Nodup) :=
  ⟨by decide, extendProductSchema_duplicate_as_success (fun _ => none) ["cbd", "aroma"]
    ⟨true, [idColumn, ⟨"title", "TEXT"⟩], []⟩ (by decide)⟩

/-! C8: getLastWorkdayDate -/

/-- C8. For every input date, getLastWorkdayDate returns a date that is never
a Saturday (day 6) or Sunday (day 0): a Saturday input yields the previous day
(a Friday, day 5), a Sunday input the day two days earlier (a Friday), and a
Monday-through-Friday input is returned unchanged. -/
theorem getLastWorkdayDate_weekday (d : Int) :
    dayOfWeek (getLastWorkdayDate d) ≠ 6 ∧
    dayOfWeek (getLastWorkdayDate d) ≠ 0 ∧
    (dayOfWeek d = 6 → getLastWorkdayDate d = d - 1 ∧ dayOfWeek (getLastWorkdayDate d) = 5) ∧
    (dayOfWeek d = 0 → getLastWorkdayDate d = d - 2 ∧ dayOfWeek (getLastWorkdayDate d) = 5) ∧
    (dayOfWeek d ≠ 6 → dayOfWeek d ≠ 0 → getLastWorkdayDate d = d) := by
  simp only [getLastWorkdayDate, dayOfWeek]
  split_ifs with h1 h2 <;> omega

/-- Witness for C8 at a concrete Sunday (day 3 since the epoch, 1970-01-04)
and a concrete Saturday (day 2, 1970-01-03). -/
theorem getLastWorkdayDate_weekday_witness :
    dayOfWeek 3 = 0 ∧ getLastWorkdayDate 3 = 1 ∧ dayOfWeek (getLastWorkdayDate 3) = 5 ∧
    dayOfWeek 2 = 6 ∧ getLastWorkdayDate 2 = 1 := by
  have h3 := (getLastWorkdayDate_weekday 3).2.2.2.1 (by decide)
  have h2 := (getLastWorkdayDate_weekday 2).2.2.1 (by decide)
  exact ⟨by decide, h3.1, h3.2, by decide, h2.1⟩

/-! C9: formatISOToDisplay -/

/-- C9. formatISOToDisplay is total (the embedding is a plain function into
String: no input throws) and: returns the empty string when the input is null,
undefined, not a string, or the empty string; returns the input unchanged when
splitting on '-' does not yield exactly three parts; and for an input whose
split yields exactly the three parts year, month, day returns
day ++ "." ++ month ++ "." ++ (last two characters of year). -/
theorem formatISOToDisplay_total_cases :
    (formatISOToDisplay JSValue.nullV = "" ∧ formatISOToDisplay JSValue.nonString = "" ∧
      formatISOToDisplay (JSValue.str "") = "") ∧
    (∀ s : String, s ≠ "" → (splitDash s.data).length ≠ 3 →
      formatISOToDisplay (JSValue.str s) = s) ∧
    (∀ (s : String) (y m dd : List Char), s ≠ "" → splitDash s.data = [y, m, dd] →
      formatISOToDisplay (JSValue.str s) =
        String.mk dd ++ "." ++ String.mk m ++ "." ++ sliceLastTwo (String.mk y)) := by
  refine ⟨⟨rfl, rfl, rfl⟩, ?_, ?_⟩
  · intro s hs hlen
    simp only [formatISOToDisplay, if_neg hs]
    rcases hsp : splitDash s.data with _ | ⟨a, _ | ⟨b, _ | ⟨c, _ | ⟨e, t⟩⟩⟩⟩ <;>
      first
        | rfl
        | exact absurd (by rw [hsp]; rfl) hlen
  · intro s y m dd hs hsp
    simp only [formatISOToDisplay, if_neg hs]
    rw [hsp]
    rfl

/-- Witness for C9 at the concrete inputs "2024-05-07" (three parts) and
"notadate" (one part). -/
theorem formatISOToDisplay_total_cases_witness :
    formatISOToDisplay (JSValue.str "2024-05-07") = "07.05.24" ∧
    formatISOToDisplay (JSValue.str "notadate") = "notadate" := by
  have h1 := formatISOToDisplay_total_cases.2.2 "2024-05-07" "2024".data "05".data "07".data
    (by decide) (by decide)
  have h2 := formatISOToDisplay_total_cases.2.1 "notadate" (by decide) (by decide)
  rw [h1, h2]
  exact ⟨by decide, rfl⟩

end Wcm
